import Mathlib

/-!
Verification of the Nature Remo climate integration
(`custom_components/nature_remo/climate.py`).

The development shallowly embeds the per-appliance control logic of
`AirconEntity`: the command staging in `set_temperature`, the debounced
dispatch in `_set_settings` / `_on_post`, the confirmed-settings merge in
`_on_settings_update`, and the capability resolver
(`min_temp` / `max_temp` / `target_temperature_step` /
`_current_mode_temp_range`).  Python dicts are embedded as association
lists, Python floats as rationals, and fallible operations (`KeyError`,
`float(...)` raising `ValueError`) as `Option`.
-/

set_option linter.unusedVariables false

namespace NatureRemo

/-! ### Python dicts as association lists

A Python `dict` keyed by strings, keeping insertion order: assigning an
existing key overwrites the value in place, assigning a fresh key appends.
-/

/-- A Python dict with `String` keys, as an insertion-ordered association
list.  Well-formed values (those produced by `dictSet` from `[]`) have
no duplicate keys. -/
abbrev Dict (α : Type) : Type := List (String × α)

/-- `d[k]` lookup (first occurrence; unique in a well-formed dict). -/
def dictGet {α : Type} (d : Dict α) (k : String) : Option α :=
  match d with
  | [] => none
  | (k', v) :: rest => if k' = k then some v else dictGet rest k

/-- `d[k] = v` assignment: overwrite in place when the key is present,
append otherwise (Python dicts keep insertion order). -/
def dictSet {α : Type} (d : Dict α) (k : String) (v : α) : Dict α :=
  match d with
  | [] => [(k, v)]
  | (k', v') :: rest =>
    if k' = k then (k', v) :: rest else (k', v') :: dictSet rest k v

/-- `d.update(e)`: assign every entry of `e` into `d`, in order. -/
def dictUpdate {α : Type} (d e : Dict α) : Dict α :=
  e.foldl (fun acc p => dictSet acc p.1 p.2) d

/-- The keys of a dict, in order. -/
def dictKeys {α : Type} (d : Dict α) : List String := d.map Prod.fst

/-- Last-write-wins combination of an accumulated field value with a
newer optional value: the newer value, when present, overrides. -/
def overrideWith {α : Type} (acc newVal : Option α) : Option α :=
  match newVal with
  | some v => some v
  | none => acc

@[simp] theorem overrideWith_some {α : Type} (acc : Option α) (v : α) :
    overrideWith acc (some v) = some v := rfl

@[simp] theorem overrideWith_none {α : Type} (acc : Option α) :
    overrideWith acc none = acc := rfl

@[simp] theorem dictGet_nil {α : Type} (k : String) :
    dictGet ([] : Dict α) k = none := rfl

@[simp] theorem dictGet_cons {α : Type} (k' k : String) (v : α) (rest : Dict α) :
    dictGet ((k', v) :: rest) k =
      if k' = k then some v else dictGet rest k := rfl

theorem dictGet_dictSet_self {α : Type} (d : Dict α) (k : String) (v : α) :
    dictGet (dictSet d k v) k = some v := by
  induction d with
  | nil => simp [dictSet, dictGet]
  | cons p rest ih =>
    obtain ⟨k', v'⟩ := p
    by_cases h : k' = k <;> simp [dictSet, dictGet, h, ih]

theorem dictGet_dictSet_ne {α : Type} (d : Dict α) (k k' : String) (v : α)
    (h : k ≠ k') : dictGet (dictSet d k v) k' = dictGet d k' := by
  induction d with
  | nil => simp [dictSet, dictGet, h]
  | cons p rest ih =>
    obtain ⟨k₀, v₀⟩ := p
    by_cases h₀ : k₀ = k
    · subst h₀; simp [dictSet, dictGet, h]
    · simp [dictSet, dictGet, h₀, ih]

theorem dictSet_idem {α : Type} (d : Dict α) (k : String) (v : α) :
    dictSet (dictSet d k v) k v = dictSet d k v := by
  induction d with
  | nil => simp [dictSet]
  | cons p rest ih =>
    obtain ⟨k', v'⟩ := p
    by_cases h : k' = k <;> simp [dictSet, h, ih]

/-- Looking anything up in `d.update(e)`: a key present in `e` takes `e`'s
value (the last assignment for that key in `e`), otherwise `d`'s value
survives.  Stated via the fold, which is how `dictUpdate` assigns. -/
theorem dictGet_dictUpdate {α : Type} (e d : Dict α) (k : String) :
    dictGet (dictUpdate d e) k =
      (e.foldl (fun acc p => if p.1 = k then some p.2 else acc) (dictGet d k)) := by
  induction e generalizing d with
  | nil => simp [dictUpdate]
  | cons p rest ih =>
    obtain ⟨k', v'⟩ := p
    show dictGet (dictUpdate (dictSet d k' v') rest) k = _
    rw [ih]
    by_cases h : k' = k
    · subst h; simp [dictGet_dictSet_self]
    · simp [h, dictGet_dictSet_ne d k' k v' h]

/-! ### Python `float(...)` on decimal numeral strings

`_on_settings_update` parses `ac_settings["temp"]` with `float`, and
`_current_mode_temp_range` maps `float` over the capability table's
temperature strings.  The strings the device protocol carries are plain
decimal numerals (optionally signed, optional fractional part); `float`
is modelled on exactly those, returning `none` where Python raises
`ValueError` (in particular on the empty string). -/

/-- Is `c` one of `'0'`–`'9'`? -/
def isDigitChar (c : Char) : Bool := '0' ≤ c && c ≤ '9'

/-- Numeric value of a digit character. -/
def digitVal (c : Char) : ℕ := c.toNat - 48

/-- Value of a digit string read left to right. -/
def natValue (cs : List Char) : ℕ :=
  cs.foldl (fun a c => 10 * a + digitVal c) 0

/-- Strip a leading sign character, remembering whether it was `-`. -/
def stripSign (cs : List Char) : Bool × List Char :=
  match cs with
  | '-' :: rest => (true, rest)
  | '+' :: rest => (false, rest)
  | _ => (false, cs)

/-- Python `float(s)` for decimal numeral strings: optional sign, integer
digits, optional `.` and fraction digits, at least one digit in total.
Returns `none` where `float` raises `ValueError`. -/
def parseFloat (s : String) : Option ℚ :=
  let (neg, cs) := stripSign s.data
  let intPart := cs.takeWhile isDigitChar
  let rest := cs.dropWhile isDigitChar
  let value : List Char → Option ℚ := fun frac =>
    if frac.all isDigitChar ∧ (intPart ≠ [] ∨ frac ≠ []) then
      some ((if neg then -1 else 1) *
        ((natValue intPart : ℚ) + (natValue frac : ℚ) / (10 : ℚ) ^ frac.length))
    else none
  match rest with
  | [] => value []
  | '.' :: frac => value frac
  | _ => none

/-! ### Modes, units and defaults

`MODE_HA_TO_REMO`, `MODE_REMO_TO_HA`, `TEMP_UNIT_REMO_TO_HA`,
`DEFAULT_TEMP` from `climate.py`.  The generic side is the closed HVAC
mode enumeration the integration supports. -/

/-- The HVAC modes appearing in `MODE_HA_TO_REMO` (the integration's
closed generic enumeration). -/
inductive HVACMode : Type
  | auto
  | fan_only
  | cool
  | dry
  | heat
  | off
deriving DecidableEq, Repr

/-- `MODE_HA_TO_REMO`. -/
def MODE_HA_TO_REMO : HVACMode → String
  | .auto => "auto"
  | .fan_only => "blow"
  | .cool => "cool"
  | .dry => "dry"
  | .heat => "warm"
  | .off => "power-off"

/-- `MODE_REMO_TO_HA` — a dict lookup, `none` models the `KeyError` on an
unmapped vendor mode. -/
def MODE_REMO_TO_HA : String → Option HVACMode
  | "auto" => some .auto
  | "blow" => some .fan_only
  | "cool" => some .cool
  | "dry" => some .dry
  | "warm" => some .heat
  | "power-off" => some .off
  | _ => none

/-- Temperature units (`UnitOfTemperature`). -/
inductive TempUnit : Type
  | celsius
  | fahrenheit
deriving DecidableEq, Repr

/-- `TEMP_UNIT_REMO_TO_HA` — `none` models the `KeyError`. -/
def TEMP_UNIT_REMO_TO_HA : String → Option TempUnit
  | "c" => some .celsius
  | "f" => some .fahrenheit
  | _ => none

/-- `DEFAULT_TEMP` — every non-off mode maps to 23; `HVACMode.OFF` has no
entry (`.get` returns `None`). -/
def DEFAULT_TEMP : HVACMode → Option ℤ
  | .off => none
  | _ => some 23

/-! ### Values staged into an outbound payload

The payload dict built by `set_temperature` mixes value types: strings
(from `f"{temperature}"`, from `_last_target_temperature[mode]`, from the
mode name) and the integer `DEFAULT_TEMP[hvac_mode]`. -/

/-- A Python value occurring in the staged payload dicts: a string or an
int. -/
inductive PyVal : Type
  | s (v : String)
  | i (n : ℤ)
deriving DecidableEq, Repr

/-- Python truthiness of the payload values the code tests with
`if self._last_target_temperature.get(mode):` and
`elif DEFAULT_TEMP.get(hvac_mode):` — a string is truthy iff non-empty,
an int iff non-zero (`None`, i.e. a missing key, is falsy and handled by
the `Option` on `dictGet`). -/
def PyVal.truthy : PyVal → Bool
  | .s v => v ≠ ""
  | .i n => n ≠ 0

/-! ### Confirmed server settings and `_on_settings_update`

`ac_settings` is the JSON object the API returns; the fields
`_on_settings_update` reads are all strings. -/

/-- The fields of the `ac_settings` object read by
`_on_settings_update`. -/
structure AcSettings : Type where
  mode : String
  temp : String
  vol : String
  dir : String
  temp_unit : String
  button : String
  updated_at : String
deriving DecidableEq, Repr

/-- The `AirconEntity` attributes written by `_on_settings_update`.
Attributes are `Option`-valued: `none` is their pre-first-update /
cleared state (`None` in Python). -/
structure EntityState : Type where
  /-- `_remo_mode` -/
  remoMode : Option String
  /-- `_attr_target_temperature` -/
  targetTemperature : Option ℚ
  /-- the mapping `self._last_target_temperature` reads and writes
  (aliasing between instances is modelled separately, see `SharedWorld`) -/
  lastTargetTemperature : Dict String
  /-- `_attr_hvac_mode` -/
  hvacMode : Option HVACMode
  /-- `_attr_fan_mode` -/
  fanMode : Option String
  /-- `_attr_swing_mode` -/
  swingMode : Option String
  /-- `_attr_temperature_unit` -/
  temperatureUnit : Option TempUnit
  /-- `_updated_at` -/
  updatedAt : Option String
deriving DecidableEq, Repr

/-- `x or None` for a string attribute: empty string normalizes to
`None`. -/
def orNone (v : String) : Option String := if v = "" then none else some v

/-- `AirconEntity._on_settings_update`.  The `try` block parses `temp`
with `float`; on success it also records the raw string under the new
mode in `_last_target_temperature`, on failure (`except:`) the target is
`None` and the mapping is untouched.  The dict lookups
`MODE_REMO_TO_HA[self._remo_mode]` (only reached when `button` is not
`"power-off"`) and `TEMP_UNIT_REMO_TO_HA[ac_settings["temp_unit"]]` raise
`KeyError` on unmapped input, modelled as `none` (no claim concerns the
partially-updated state Python leaves behind in that case). -/
def applyConfirmed (st : EntityState) (s : AcSettings) : Option EntityState :=
  let target : Option ℚ := parseFloat s.temp
  let lastTarget : Dict String :=
    match parseFloat s.temp with
    | some _ => dictSet st.lastTargetTemperature s.mode s.temp
    | none => st.lastTargetTemperature
  match
    (if s.button = MODE_HA_TO_REMO .off then some HVACMode.off
     else MODE_REMO_TO_HA s.mode),
    TEMP_UNIT_REMO_TO_HA s.temp_unit with
  | some hvac, some unit =>
    some
      { remoMode := some s.mode
        targetTemperature := target
        lastTargetTemperature := lastTarget
        hvacMode := some hvac
        fanMode := orNone s.vol
        swingMode := orNone s.dir
        temperatureUnit := some unit
        updatedAt := orNone s.updated_at }
  | _, _ => none

/-! ### `f"{temperature}"`: Python string formatting of the staged value

`set_temperature` casts a whole-number float to `int` before formatting
(`if temperature.is_integer(): temperature = int(temperature)`), so the
staged string is either the decimal representation of an integer or the
`repr` of a non-integral float.  Temperatures are modelled as rationals;
the float `repr` is modelled for the one-decimal values the climate
platform produces (the step heuristic only ever accepts steps 1 and
0.5). -/

/-- The decimal digit character for `n % 10`-style values. -/
def digitChar (n : ℕ) : Char :=
  match n with
  | 0 => '0' | 1 => '1' | 2 => '2' | 3 => '3' | 4 => '4'
  | 5 => '5' | 6 => '6' | 7 => '7' | 8 => '8' | _ => '9'

/-- Decimal digits of `n`, most significant first. -/
def natDigits (n : ℕ) : List Char :=
  if h : n < 10 then [digitChar n]
  else natDigits (n / 10) ++ [digitChar (n % 10)]
  termination_by n
  decreasing_by exact Nat.div_lt_self (by omega) (by omega)

/-- `f"{n}"` for a Python int. -/
def intRepr (i : ℤ) : String :=
  if i < 0 then String.mk ('-' :: natDigits i.natAbs)
  else String.mk (natDigits i.natAbs)

/-- `f"{x}"` for a non-negative float with exactly one decimal digit
(`x.is_integer()` false, `10 * x` integral): Python prints e.g. `24.5`. -/
def oneDecRepr (t : ℚ) : String :=
  intRepr ⌊t⌋ ++ "." ++ String.mk [digitChar ((10 * t).num - 10 * ⌊t⌋).toNat]

/-- The staged temperature string: `f"{temperature}"` after the
whole-number cast to `int`.  Modelled for `t ≥ 0` with at most one
decimal digit; other rationals take the `oneDecRepr` branch but no claim
touches them. -/
def pyFormat (t : ℚ) : String :=
  if t.den = 1 then intRepr t.num else oneDecRepr t

/-! ### `set_temperature` / `set_hvac_mode` / `set_fan_mode` /
`set_swing_mode`: building the staged command dict -/

/-- The dict `data` built by `AirconEntity.set_temperature` from the
optional `temperature` and `hvac_mode` arguments, given the current
`_last_target_temperature` mapping.  Follows the source line by line:
the `hvac_mode` branch stages `button` for power-off, otherwise
`operation_mode` plus a remembered/default temperature; an explicit
`temperature` is normalized and staged last, overwriting the mode
branch's entry. -/
def set_temperature_data (lastTarget : Dict String) (temperature : Option ℚ)
    (hvac_mode : Option HVACMode) : Dict PyVal :=
  let data : Dict PyVal := []
  let data :=
    match hvac_mode with
    | none => data
    | some hm =>
      let mode := MODE_HA_TO_REMO hm
      if mode = MODE_HA_TO_REMO .off then dictSet data "button" (.s mode)
      else
        let data := dictSet data "operation_mode" (.s mode)
        match dictGet lastTarget mode with
        | some v =>
          if v ≠ "" then dictSet data "temperature" (.s v)
          else
            match DEFAULT_TEMP hm with
            | some n => if n ≠ 0 then dictSet data "temperature" (.i n) else data
            | none => data
        | none =>
          match DEFAULT_TEMP hm with
          | some n => if n ≠ 0 then dictSet data "temperature" (.i n) else data
          | none => data
  match temperature with
  | none => data
  | some t => dictSet data "temperature" (.s (pyFormat t))

/-- `set_fan_mode`: stages `{"air_volume": fan_mode}`. -/
def set_fan_mode_data (fan_mode : String) : Dict PyVal :=
  [("air_volume", .s fan_mode)]

/-- `set_swing_mode`: stages `{"air_direction": swing_mode}`. -/
def set_swing_mode_data (swing_mode : String) : Dict PyVal :=
  [("air_direction", .s swing_mode)]

/-! ### Capability resolver

`_current_mode_temp_range` reads the capability table entry
`self._modes[self._remo_mode]["temp"]` — a list of temperature strings —
filters out falsy (empty) entries and maps `float` over the rest.
`min_temp`, `max_temp` and `target_temperature_step` consume the result.
A failing `float` parse raises out of the property; that exception is
modelled as `none` on the range. -/

/-- `round(q, 1)` for the step computation: Python 3 `round` — scale by
10, round half to even, scale back. -/
def pyRound1 (q : ℚ) : ℚ :=
  let x : ℚ := 10 * q
  let f : ℤ := ⌊x⌋
  let r : ℚ := x - f
  let n : ℤ :=
    if r < 1 / 2 then f
    else if 1 / 2 < r then f + 1
    else if Even f then f else f + 1
  (n : ℚ) / 10

/-- `AirconEntity._current_mode_temp_range` applied to the capability
table's temperature list for the current mode:
`list(map(float, filter(None, temp_range)))`.  `none` models the
`ValueError` raised when a non-empty entry does not parse. -/
def _current_mode_temp_range (temp_range : List String) : Option (List ℚ) :=
  (temp_range.filter (fun s => !(s == ""))).mapM parseFloat

/-- `AirconEntity.min_temp`: 0 on an empty range, else the minimum. -/
def min_temp (temp_range : List String) : Option ℚ :=
  (_current_mode_temp_range temp_range).map fun l =>
    match l with
    | [] => 0
    | x :: xs => xs.foldl min x

/-- `AirconEntity.max_temp`: 0 on an empty range, else the maximum. -/
def max_temp (temp_range : List String) : Option ℚ :=
  (_current_mode_temp_range temp_range).map fun l =>
    match l with
    | [] => 0
    | x :: xs => xs.foldl max x

/-- `AirconEntity.target_temperature_step`: with at least two values the
step is `round(temp_range[1] - temp_range[0], 1)` if that lies in
`[1.0, 0.5]`, otherwise (and with fewer than two values) 1. -/
def target_temperature_step (temp_range : List String) : Option ℚ :=
  (_current_mode_temp_range temp_range).map fun l =>
    match l with
    | a :: b :: _ =>
      let step := pyRound1 (b - a)
      if step = 1 ∨ step = 1 / 2 then step else 1
    | _ => 1

/-! ### The debounced dispatch: `_set_settings` / `_on_post`

Per-entity state machine over the three attributes involved:
`_next_settings` (the pending merged command), `_post_cancel` (whether a
dispatch timer is armed — the handle returned by `async_call_later`), and
the list of payloads handed to `self._post` so far.  Events are: a user
command reaching `_set_settings`; the quiet interval elapsing (the armed
timer, if any, fires `_on_post`); and the host tearing the entity down.
-/

/-- The debounce-relevant state of one `AirconEntity`, plus the trace of
dispatched payloads. -/
structure AcWorld : Type where
  /-- `_next_settings`: the pending merged command, `None` when empty -/
  nextSettings : Option (Dict PyVal)
  /-- `_post_cancel is not None`: a dispatch timer is armed -/
  postCancel : Bool
  /-- payloads handed to `self._post(...)`, oldest first -/
  posted : List (Option (Dict PyVal))
deriving DecidableEq, Repr

/-- The entity's state at construction: no pending command, no timer, no
request sent. -/
def AcWorld.init : AcWorld := ⟨none, false, []⟩

/-- `AirconEntity._set_settings(data)`: merge `data` into
`_next_settings` (create it if absent, else `dict.update`), cancel any
armed timer, and arm a fresh one for 100 ms from now. -/
def _set_settings (w : AcWorld) (data : Dict PyVal) : AcWorld :=
  { nextSettings :=
      some (match w.nextSettings with
            | none => data
            | some pending => dictUpdate pending data)
    postCancel := true
    posted := w.posted }

/-- `AirconEntity._on_post`: clear the timer handle, take the pending
command, clear the buffer, and hand the payload to `self._post`. -/
def _on_post (w : AcWorld) : AcWorld :=
  { nextSettings := none
    postCancel := false
    posted := w.posted ++ [w.nextSettings] }

/-- Events driving one entity's debounce state. -/
inductive AcEvent : Type
  /-- a user command (`set_temperature` / `set_hvac_mode` /
  `set_fan_mode` / `set_swing_mode`) reaching `_set_settings` -/
  | cmd (data : Dict PyVal)
  /-- a full quiet interval (100 ms) elapsing with no intervening event:
  the armed `async_call_later` timer, if any, fires `_on_post` -/
  | elapse
  /-- the host removes the entity.  In `climate.py` the only removal
  callback registered is `async_on_remove(devices.async_add_listener(...))`
  in `__init__`, which unsubscribes the device-telemetry listener;
  nothing cancels `_post_cancel` or clears `_next_settings`, and the
  timer scheduled on `hass` outlives the entity -/
  | teardown

/-- One step of the entity's event loop. -/
def acStep (w : AcWorld) (e : AcEvent) : AcWorld :=
  match e with
  | .cmd data => _set_settings w data
  | .elapse => if w.postCancel then _on_post w else w
  | .teardown => w

/-- Run a sequence of events from a state. -/
def acRun (w : AcWorld) (es : List AcEvent) : AcWorld :=
  es.foldl acStep w

/-! ### `_last_target_temperature` across two entities

`AirconEntity` declares `_last_target_temperature = {}` at class level.
`_on_settings_update` mutates that dict in place
(`self._last_target_temperature[self._remo_mode] = ...`): item
assignment goes through Python attribute *lookup*, which yields the
instance's own dict only if `async_added_to_hass` has assigned one
(`self._last_target_temperature = state.attributes[...]`), and the
shared class dict otherwise.  Modelled for two entities A and B. -/

/-- The class-level `_last_target_temperature` dict plus the optional
per-instance dicts of two `AirconEntity` instances A and B. -/
structure SharedWorld : Type where
  /-- the dict bound to the class attribute `_last_target_temperature` -/
  classDict : Dict String
  /-- A's instance attribute, once `async_added_to_hass` assigns it -/
  aOwn : Option (Dict String)
  /-- B's instance attribute, once `async_added_to_hass` assigns it -/
  bOwn : Option (Dict String)
deriving DecidableEq, Repr

/-- Fresh world: no entity has restored state, both read the (empty)
class dict. -/
def SharedWorld.fresh : SharedWorld := ⟨[], none, none⟩

/-- Python attribute lookup `self._last_target_temperature`: the
instance dict if one was assigned, else the class dict. -/
def lookupLastTarget (classDict : Dict String) (own : Option (Dict String)) :
    Dict String :=
  own.getD classDict

/-- The mapping entity A observes. -/
def SharedWorld.aView (w : SharedWorld) : Dict String :=
  lookupLastTarget w.classDict w.aOwn

/-- The mapping entity B observes. -/
def SharedWorld.bView (w : SharedWorld) : Dict String :=
  lookupLastTarget w.classDict w.bOwn

/-- The effect of `_on_settings_update(ac_settings)` on entity A's
`_last_target_temperature`: when `float(ac_settings["temp"])` succeeds,
`self._last_target_temperature[mode] = ac_settings["temp"]` mutates in
place whichever dict A's attribute lookup resolves to. -/
def recordConfirmedA (w : SharedWorld) (s : AcSettings) : SharedWorld :=
  match parseFloat s.temp with
  | none => w
  | some _ =>
    match w.aOwn with
    | some d => { w with aOwn := some (dictSet d s.mode s.temp) }
    | none => { w with classDict := dictSet w.classDict s.mode s.temp }

/-- `async_added_to_hass` on A with a restored
`previous_target_temperature` attribute: assigns A its own instance
dict. -/
def restoreA (w : SharedWorld) (d : Dict String) : SharedWorld :=
  { w with aOwn := some d }

/-- `async_added_to_hass` on B with a restored attribute. -/
def restoreB (w : SharedWorld) (d : Dict String) : SharedWorld :=
  { w with bOwn := some d }

/-! ### Spec-side merge for the debounce property

The spec's characterization of the merged payload: field-wise, the last
command that wrote the field wins. -/

/-- For a field `k`, the last value any command in `cmds` (in arrival
order) staged for `k`, if any — the spec's "last write per field
wins". -/
def specLastWrite (cmds : List (Dict PyVal)) (k : String) : Option PyVal :=
  cmds.foldl (fun acc d => overrideWith acc (dictGet d k)) none

/-! ### Supporting lemmas -/

theorem dictGet_mem {α : Type} {d : Dict α} {k : String} {v : α}
    (h : dictGet d k = some v) : (k, v) ∈ d := by
  induction d with
  | nil => simp [dictGet] at h
  | cons p rest ih =>
    obtain ⟨k', v'⟩ := p
    by_cases hk : k' = k
    · subst hk
      simp [dictGet] at h
      subst h
      exact List.mem_cons_self _ _
    · simp [dictGet, hk] at h
      exact List.mem_cons_of_mem _ (ih h)

theorem mem_dictSet {α : Type} {d : Dict α} {k : String} {v : α} {p : String × α}
    (h : p ∈ dictSet d k v) : p ∈ d ∨ p = (k, v) := by
  induction d with
  | nil => simp [dictSet] at h; simp [h]
  | cons q rest ih =>
    obtain ⟨k', v'⟩ := q
    by_cases hk : k' = k
    · subst hk
      simp [dictSet] at h
      rcases h with h | h
      · exact Or.inr (by simp [h])
      · exact Or.inl (List.mem_cons_of_mem _ h)
    · simp [dictSet, hk] at h
      rcases h with h | h
      · exact Or.inl (by simp [h])
      · rcases ih h with h' | h'
        · exact Or.inl (List.mem_cons_of_mem _ h')
        · exact Or.inr h'

/-- Keys of a dict after `dictSet`. -/
theorem dictKeys_dictSet {α : Type} (d : Dict α) (k : String) (v : α) :
    dictKeys (dictSet d k v) =
      if k ∈ dictKeys d then dictKeys d else dictKeys d ++ [k] := by
  induction d with
  | nil => simp [dictSet, dictKeys]
  | cons p rest ih =>
    obtain ⟨k', v'⟩ := p
    by_cases hk : k' = k
    · subst hk; simp [dictSet, dictKeys]
    · simp only [dictSet, if_neg hk, dictKeys, List.map_cons] at ih ⊢
      rw [ih]
      have : (k ∈ k' :: List.map Prod.fst rest) ↔ (k ∈ List.map Prod.fst rest) := by
        simp [Ne.symm hk]
      by_cases hmem : k ∈ List.map Prod.fst rest <;> simp [hmem, this]

/-- Folding the "last assignment wins" accumulator over a dict with no
duplicate keys computes the (unique) binding of `k`, if any. -/
theorem foldl_lastWrite_of_nodup {α : Type} (d : Dict α) (k : String)
    (init : Option α) (hnd : (dictKeys d).Nodup) :
    d.foldl (fun acc p => if p.1 = k then some p.2 else acc) init =
      overrideWith init (dictGet d k) := by
  induction d generalizing init with
  | nil => simp [dictGet]
  | cons p rest ih =>
    obtain ⟨k', v'⟩ := p
    simp only [dictKeys, List.map_cons, List.nodup_cons] at hnd
    obtain ⟨hk', hrest⟩ := hnd
    by_cases hk : k' = k
    · subst hk
      have hnone : dictGet rest k' = none := by
        cases hg : dictGet rest k' with
        | none => rfl
        | some w =>
          exact absurd (List.mem_map_of_mem Prod.fst (dictGet_mem hg)) hk'
      simp only [List.foldl_cons, if_pos]
      rw [ih (some v') hrest, hnone]
      simp [dictGet]
    · simp only [List.foldl_cons, if_neg hk]
      rw [ih init hrest]
      simp [dictGet, hk]

/-- Lookup in `d.update(e)` when `e` has no duplicate keys: `e`'s binding
wins when present, else `d`'s survives. -/
theorem dictGet_dictUpdate_of_nodup {α : Type} (d e : Dict α) (k : String)
    (hnd : (dictKeys e).Nodup) :
    dictGet (dictUpdate d e) k = overrideWith (dictGet d k) (dictGet e k) := by
  rw [dictGet_dictUpdate]
  exact foldl_lastWrite_of_nodup e k (dictGet d k) hnd

/-- A value stored by a successful `float` parse is never the empty
string. -/
theorem parseFloat_ne_empty {s : String} {q : ℚ} (h : parseFloat s = some q) :
    s ≠ "" := by
  intro hs
  subst hs
  rw [show parseFloat "" = none by rfl] at h
  exact Option.noConfusion h

/-- `_on_settings_update` keeps the invariant that every value stored in
`_last_target_temperature` is a non-empty (truthy) string: the raw
`temp` string is only recorded when `float` parsed it. -/
theorem applyConfirmed_preserves_truthy {st st' : EntityState} {s : AcSettings}
    (h : applyConfirmed st s = some st')
    (hwf : ∀ p ∈ st.lastTargetTemperature, p.2 ≠ "") :
    ∀ p ∈ st'.lastTargetTemperature, p.2 ≠ "" := by
  unfold applyConfirmed at h
  cases hb : (if s.button = MODE_HA_TO_REMO .off then some HVACMode.off
              else MODE_REMO_TO_HA s.mode) with
  | none => rw [hb] at h; simp at h
  | some hvac =>
    cases hu : TEMP_UNIT_REMO_TO_HA s.temp_unit with
    | none => rw [hb, hu] at h; simp at h
    | some unit =>
      rw [hb, hu] at h
      simp only [Option.some.injEq] at h
      subst h
      cases hp : parseFloat s.temp with
      | none => simpa [hp] using hwf
      | some q =>
        simp only [hp]
        intro p hmem
        rcases mem_dictSet hmem with hin | heq
        · exact hwf p hin
        · subst heq
          exact parseFloat_ne_empty hp

theorem isDigitChar_digitChar (n : ℕ) : isDigitChar (digitChar n) = true := by
  unfold digitChar
  split <;> decide

theorem digitChar_ne_dot (n : ℕ) : digitChar n ≠ '.' := by
  unfold digitChar
  split <;> decide

theorem digitVal_digitChar {n : ℕ} (h : n < 10) : digitVal (digitChar n) = n := by
  interval_cases n <;> decide

theorem natDigits_ne_nil (n : ℕ) : natDigits n ≠ [] := by
  unfold natDigits
  split
  · simp
  · simp

theorem natDigits_all_digits (n : ℕ) : ∀ c ∈ natDigits n, isDigitChar c = true := by
  induction n using Nat.strong_induction_on with
  | _ n ih =>
    unfold natDigits
    split
    · intro c hc
      simp at hc
      subst hc
      exact isDigitChar_digitChar n
    · rename_i h
      intro c hc
      rcases List.mem_append.mp hc with hc | hc
      · exact ih (n / 10) (Nat.div_lt_self (by omega) (by omega)) c hc
      · simp at hc
        subst hc
        exact isDigitChar_digitChar (n % 10)

theorem natValue_append_digit (ds : List Char) (c : Char) :
    natValue (ds ++ [c]) = 10 * natValue ds + digitVal c := by
  simp [natValue, List.foldl_append]

theorem natValue_natDigits (n : ℕ) : natValue (natDigits n) = n := by
  induction n using Nat.strong_induction_on with
  | _ n ih =>
    unfold natDigits
    split
    · rename_i h
      simp [natValue, digitVal_digitChar h]
    · rename_i h
      rw [natValue_append_digit,
        ih (n / 10) (Nat.div_lt_self (by omega) (by omega)),
        digitVal_digitChar (Nat.mod_lt _ (by omega))]
      omega

/-- `takeWhile` stops exactly at the first non-matching element after an
all-matching prefix. -/
theorem takeWhile_all_append {p : Char → Bool} {l₁ : List Char} (l₂ : List Char)
    (h : ∀ c ∈ l₁, p c = true) (h₂ : ∀ c ∈ l₂.head?, p c = false) :
    (l₁ ++ l₂).takeWhile p = l₁ ∧ (l₁ ++ l₂).dropWhile p = l₂ := by
  induction l₁ with
  | nil =>
    cases l₂ with
    | nil => simp
    | cons c rest =>
      have := h₂ c (by simp)
      simp [List.takeWhile, List.dropWhile, this]
  | cons c rest ih =>
    have hc := h c (by simp)
    have := ih (fun d hd => h d (by simp [hd]))
    simp [List.takeWhile, List.dropWhile, hc, this]

/-- `natDigits` never starts with a sign character. -/
theorem natDigits_head_not_sign (n : ℕ) :
    ∀ c ∈ (natDigits n).head?, c ≠ '-' ∧ c ≠ '+' := by
  intro c hc
  cases hd : natDigits n with
  | nil => exact absurd hd (natDigits_ne_nil n)
  | cons c' rest =>
    rw [hd] at hc
    simp at hc
    subst hc
    have := natDigits_all_digits n c' (by rw [hd]; simp)
    constructor <;> (intro h; subst h; simp [isDigitChar] at this)

/-- A list starting with a digit loses no sign. -/
theorem stripSign_of_digit_head {cs : List Char}
    (h : ∀ c ∈ cs.head?, isDigitChar c = true) : stripSign cs = (false, cs) := by
  cases cs with
  | nil => rfl
  | cons c rest =>
    have hc := h c (by simp)
    unfold stripSign
    split
    · rename_i heq
      rw [List.cons.injEq] at heq
      rw [heq.1] at hc
      simp [isDigitChar] at hc
    · rename_i heq
      rw [List.cons.injEq] at heq
      rw [heq.1] at hc
      simp [isDigitChar] at hc
    · rfl

/-- Parsing the digit string of `n` gives back `n`:
`float(f"{n}") == n` for a Python non-negative int. -/
theorem parseFloat_natDigits (n : ℕ) :
    parseFloat (String.mk (natDigits n)) = some (n : ℚ) := by
  have hall := natDigits_all_digits n
  have hstrip : stripSign (natDigits n) = (false, natDigits n) :=
    stripSign_of_digit_head fun c hc => hall c (List.mem_of_mem_head? hc)
  obtain ⟨htake, hdrop⟩ :=
    @takeWhile_all_append isDigitChar (natDigits n) [] hall (by simp)
  rw [List.append_nil] at htake hdrop
  unfold parseFloat
  simp only [String.mk, hstrip, htake, hdrop]
  rw [if_pos ⟨by simp, Or.inl (natDigits_ne_nil n)⟩]
  have h0 : natValue [] = 0 := rfl
  simp [h0, natValue_natDigits]

/-- Parsing `<digits of m>.<digit d>` gives `m + d/10`. -/
theorem parseFloat_digits_dot_digit (m d : ℕ) (hd : d < 10) :
    parseFloat (String.mk (natDigits m ++ '.' :: [digitChar d])) =
      some ((m : ℚ) + (d : ℚ) / 10) := by
  have hall := natDigits_all_digits m
  have hstrip : stripSign (natDigits m ++ '.' :: [digitChar d]) =
      (false, natDigits m ++ '.' :: [digitChar d]) := by
    apply stripSign_of_digit_head
    intro c hc
    cases hds : natDigits m with
    | nil => exact absurd hds (natDigits_ne_nil m)
    | cons c' rest =>
      rw [hds] at hc
      simp at hc
      subst hc
      exact hall c' (by rw [hds]; simp)
  obtain ⟨htake, hdrop⟩ :=
    @takeWhile_all_append isDigitChar (natDigits m)
      ('.' :: [digitChar d]) hall (by intro c hc; simp at hc; subst hc; rfl)
  unfold parseFloat
  simp only [String.mk, hstrip, htake, hdrop]
  rw [if_pos ⟨by simp [isDigitChar_digitChar], Or.inr (by simp)⟩]
  have h1 : natValue [digitChar d] = d := by
    simp [natValue, digitVal_digitChar hd]
  rw [natValue_natDigits, h1]
  norm_num

/-- `f"{i}"` for a non-negative int contains no decimal point. -/
theorem intRepr_no_dot {i : ℤ} (h : 0 ≤ i) : '.' ∉ (intRepr i).data := by
  rw [intRepr, if_neg (not_lt.mpr h)]
  intro hmem
  have := natDigits_all_digits i.natAbs '.' hmem
  simp [isDigitChar] at this

/-- The characters of `oneDecRepr t` for a non-negative `t`. -/
theorem oneDecRepr_data {t : ℚ} (hpos : 0 ≤ t) :
    (oneDecRepr t).data =
      natDigits ⌊t⌋.natAbs ++ '.' :: [digitChar ((10 * t).num - 10 * ⌊t⌋).toNat] := by
  have hfl : ¬(⌊t⌋ < 0) := not_lt.mpr (Int.floor_nonneg.mpr hpos)
  rw [oneDecRepr, intRepr, if_neg hfl]
  simp [String.data_append]

/-- The fractional digit of a one-decimal, non-integral, non-negative
rational is between 1 and 9. -/
theorem oneDec_digit_bounds {t : ℚ} (hpos : 0 ≤ t) (h10 : (10 * t).den = 1)
    (hne : t.den ≠ 1) :
    1 ≤ (10 * t).num - 10 * ⌊t⌋ ∧ (10 * t).num - 10 * ⌊t⌋ < 10 := by
  have hx : ((10 * t).num : ℚ) = 10 * t := by
    have := Rat.num_div_den (10 * t)
    rw [h10] at this
    simpa using this
  have hle : (⌊t⌋ : ℚ) ≤ t := Int.floor_le t
  have hlt : t < (⌊t⌋ : ℚ) + 1 := Int.lt_floor_add_one t
  constructor
  · by_contra hcon
    push_neg at hcon
    have hge : 10 * (⌊t⌋ : ℚ) ≤ 10 * t := by linarith
    have hle' : (10 * t).num ≤ 10 * ⌊t⌋ := by omega
    have : (10 * t : ℚ) ≤ 10 * (⌊t⌋ : ℚ) := by
      rw [← hx]
      exact_mod_cast hle'
    have ht : t = (⌊t⌋ : ℚ) := by linarith
    rw [ht] at hne
    simp [Rat.den_intCast] at hne
  · have h : (10 * t : ℚ) < 10 * (⌊t⌋ : ℚ) + 10 := by linarith
    rw [← hx] at h
    have h' : (10 * t).num < 10 * ⌊t⌋ + 10 := by exact_mod_cast h
    omega

/-- Roundtrip for the staged temperature string: `float` parses
`f"{temperature}"` (after the whole-number `int` cast) back to the same
value, for the non-negative, at-most-one-decimal temperatures the
integration handles. -/
theorem parseFloat_pyFormat {t : ℚ} (hpos : 0 ≤ t) (h10 : (10 * t).den = 1) :
    parseFloat (pyFormat t) = some t := by
  by_cases hden : t.den = 1
  · rw [pyFormat, if_pos hden, intRepr,
      if_neg (not_lt.mpr (Rat.num_nonneg.mpr hpos))]
    rw [parseFloat_natDigits]
    congr 1
    have hnum : ((t.num.natAbs : ℕ) : ℚ) = (t.num : ℚ) := by
      rw [Int.cast_natAbs, abs_of_nonneg (Rat.num_nonneg.mpr hpos)]
    have hval := Rat.num_div_den t
    rw [hden] at hval
    simp at hval
    rw [hnum, hval]
  · obtain ⟨h1, h9⟩ := oneDec_digit_bounds hpos h10 hden
    have hx : ((10 * t).num : ℚ) = 10 * t := by
      have := Rat.num_div_den (10 * t)
      rw [h10] at this
      simpa using this
    rw [pyFormat, if_neg hden]
    have hdata : oneDecRepr t =
        String.mk (natDigits ⌊t⌋.natAbs ++
          '.' :: [digitChar ((10 * t).num - 10 * ⌊t⌋).toNat]) := by
      cases hrep : oneDecRepr t
      rw [← hrep, ← oneDecRepr_data hpos, hrep]
    rw [hdata, parseFloat_digits_dot_digit _ _ (by omega)]
    congr 1
    have hm : ((⌊t⌋.natAbs : ℕ) : ℚ) = (⌊t⌋ : ℚ) := by
      rw [Int.cast_natAbs, abs_of_nonneg (Int.floor_nonneg.mpr hpos)]
    have hdq : ((((10 * t).num - 10 * ⌊t⌋).toNat : ℕ) : ℚ) =
        (((10 * t).num : ℚ) - 10 * (⌊t⌋ : ℚ)) := by
      have := Int.toNat_of_nonneg (le_of_lt (by omega :
        (0 : ℤ) < (10 * t).num - 10 * ⌊t⌋))
      rw [show ((((10 * t).num - 10 * ⌊t⌋).toNat : ℕ) : ℚ) =
          ((((10 * t).num - 10 * ⌊t⌋).toNat : ℤ) : ℚ) by push_cast; ring, this]
      push_cast
      ring
    rw [hm, hdq, hx]
    ring

@[simp] theorem acRun_nil (w : AcWorld) : acRun w [] = w := rfl

@[simp] theorem acRun_cons (w : AcWorld) (e : AcEvent) (es : List AcEvent) :
    acRun w (e :: es) = acRun (acStep w e) es := rfl

/-- Running a burst of commands (no interval elapsing in between): the
pending buffer accumulates the merge, a timer ends up armed, and nothing
is posted. -/
theorem acRun_cmds (w : AcWorld) (ds : List (Dict PyVal)) :
    acRun w (ds.map AcEvent.cmd) =
      { nextSettings :=
          ds.foldl (fun acc d => some (match acc with
            | none => d
            | some p => dictUpdate p d)) w.nextSettings
        postCancel := (w.postCancel || !ds.isEmpty)
        posted := w.posted } := by
  induction ds generalizing w with
  | nil => simp
  | cons d rest ih =>
    rw [List.map_cons, acRun_cons, ih]
    simp [acStep, _set_settings]

/-- Once a first command is buffered, further commands fold in with
`dict.update`. -/
theorem pending_foldl (p : Dict PyVal) (ds : List (Dict PyVal)) :
    ds.foldl (fun acc d => some (match acc with
      | none => d
      | some q => dictUpdate q d)) (some p) =
      some (ds.foldl dictUpdate p) := by
  induction ds generalizing p with
  | nil => rfl
  | cons d rest ih => simp [List.foldl_cons, ih]

/-- Field lookup in an iterated `dict.update` equals the last-write-wins
fold, provided each merged dict has no duplicate keys. -/
theorem dictGet_foldl_dictUpdate (c : Dict PyVal) (rest : List (Dict PyVal))
    (k : String) (hwf : ∀ d ∈ rest, (dictKeys d).Nodup) :
    dictGet (rest.foldl dictUpdate c) k =
      rest.foldl (fun acc d => overrideWith acc (dictGet d k)) (dictGet c k) := by
  induction rest generalizing c with
  | nil => rfl
  | cons d ds ih =>
    simp only [List.foldl_cons]
    rw [ih (dictUpdate c d) (fun d' hd' => hwf d' (by simp [hd'])),
      dictGet_dictUpdate_of_nodup c d k (hwf d (by simp))]

/-- Evaluation of the digit printer on 25 (the well-founded recursion is
unfolded through its equations). -/
theorem natDigits_25 : natDigits 25 = ['2', '5'] := by
  rw [natDigits, dif_neg (by norm_num : ¬(25 : ℕ) < 10),
    show (25 : ℕ) / 10 = 2 by norm_num, show (25 : ℕ) % 10 = 5 by norm_num,
    natDigits, dif_pos (by norm_num : (2 : ℕ) < 10)]
  decide

/-- Digits of a two-digit number. -/
theorem natDigits_two_digit (n : ℕ) (hlo : 10 ≤ n) (hhi : n < 100) :
    natDigits n = [digitChar (n / 10), digitChar (n % 10)] := by
  rw [natDigits, dif_neg (by omega), natDigits, dif_pos (by omega : n / 10 < 10)]
  rfl

/-- Evaluation of the parser on the literal `"18"`. -/
theorem parseFloat_18 : parseFloat "18" = some 18 := by
  have h := parseFloat_natDigits 18
  rw [natDigits_two_digit 18 (by norm_num) (by norm_num)] at h
  norm_num at h
  exact h

/-- Evaluation of the parser on the literal `"19"`. -/
theorem parseFloat_19 : parseFloat "19" = some 19 := by
  have h := parseFloat_natDigits 19
  rw [natDigits_two_digit 19 (by norm_num) (by norm_num)] at h
  norm_num at h
  exact h

/-- Evaluation of the parser on the literal `"18.5"`. -/
theorem parseFloat_18_5 : parseFloat "18.5" = some (37 / 2) := by
  have h := parseFloat_digits_dot_digit 18 5 (by norm_num)
  rw [natDigits_two_digit 18 (by norm_num) (by norm_num)] at h
  norm_num at h
  exact h

/-- Evaluation of the parser on the literal `"25"`. -/
theorem parseFloat_25 : parseFloat "25" = some 25 := by
  have h2 := parseFloat_natDigits 25
  rw [natDigits_25] at h2
  norm_num at h2
  exact h2

/-! ### The claims -/

/-- C1: For every sequence of user commands (set temperature, set mode,
set fan mode, set swing mode) issued within one quiet interval, exactly
one outbound request is dispatched, and its payload equals the
field-wise merge of all the commands' staged fields in arrival order,
where for each field the last written value wins. -/
theorem C1_one_request_with_last_write_wins_merge (cmds : List (Dict PyVal))
    (hne : cmds ≠ [])
    (hwf : ∀ d ∈ cmds, (dictKeys d).Nodup) :
    ∃ p : Dict PyVal,
      (acRun AcWorld.init (cmds.map AcEvent.cmd ++ [AcEvent.elapse])).posted =
        [some p] ∧
      ∀ k, dictGet p k = specLastWrite cmds k := by
  cases cmds with
  | nil => exact absurd rfl hne
  | cons c rest =>
    refine ⟨rest.foldl dictUpdate c, ?_, ?_⟩
    · show ((acRun AcWorld.init
        ((c :: rest).map AcEvent.cmd ++ [AcEvent.elapse]))).posted = _
      rw [show acRun AcWorld.init ((c :: rest).map AcEvent.cmd ++ [AcEvent.elapse]) =
          acRun (acRun AcWorld.init ((c :: rest).map AcEvent.cmd)) [AcEvent.elapse] by
        simp [acRun, List.foldl_append]]
      rw [acRun_cmds]
      simp only [AcWorld.init, List.map_cons, List.foldl_cons]
      rw [pending_foldl]
      simp [acStep, _on_post]
    · intro k
      rw [dictGet_foldl_dictUpdate c rest k (fun d hd => hwf d (by simp [hd])),
        specLastWrite, List.foldl_cons]
      have hinit : overrideWith (none : Option PyVal) (dictGet c k) = dictGet c k := by
        cases dictGet c k <;> rfl
      rw [hinit]

/-- C1 witness: a cool-mode command followed by a temperature tap within
the quiet interval produce exactly one request carrying the merged
payload. -/
theorem C1_one_request_with_last_write_wins_merge_witness :
    ∃ p : Dict PyVal,
      (acRun AcWorld.init
        ([[("operation_mode", PyVal.s "cool"), ("temperature", PyVal.s "23")],
          [("temperature", PyVal.s "25")]].map AcEvent.cmd ++
          [AcEvent.elapse])).posted = [some p] ∧
      ∀ k, dictGet p k =
        specLastWrite
          [[("operation_mode", PyVal.s "cool"), ("temperature", PyVal.s "23")],
           [("temperature", PyVal.s "25")]] k :=
  C1_one_request_with_last_write_wins_merge
    [[("operation_mode", PyVal.s "cool"), ("temperature", PyVal.s "23")],
     [("temperature", PyVal.s "25")]]
    (by decide) (by decide)

/-- C2: the claim says tearing down an entity with an armed debounce
timer cancels it and no request is ever sent.  The code never cancels
`_post_cancel` on removal (the only registered removal callback
unsubscribes the telemetry listener), so the scheduled `_on_post` still
fires and posts the pending command: after `cmd`, `teardown`, `elapse`
the timer is armed at teardown and exactly one request goes out. -/
theorem C2_teardown_does_not_cancel_pending_dispatch :
    (acRun AcWorld.init [AcEvent.cmd [("temperature", PyVal.s "24")]]).postCancel
      = true ∧
    (acRun AcWorld.init [AcEvent.cmd [("temperature", PyVal.s "24")],
        AcEvent.teardown, AcEvent.elapse]).posted =
      [some [("temperature", PyVal.s "24")]] := by
  decide

/-- C3 counterexample: `_last_target_temperature = {}` is a class
attribute, and `_on_settings_update` mutates it in place.  For two
freshly constructed entities (no restored state, so neither has an
instance-level dict), confirming cool/25 on A changes the mapping B
observes — refuting "applying a confirmed-settings update to A leaves
B's lastTargetByMode mapping unchanged". -/
theorem C3_fresh_entities_share_class_dict :
    (recordConfirmedA SharedWorld.fresh
        ⟨"cool", "25", "auto", "swing", "c", "", "2023-01-01"⟩).bView ≠
      SharedWorld.fresh.bView := by
  decide

/-- C3 (amended): `lastTargetByMode` is isolated between two entities
only when at least one of them has its own instance-level mapping
(assigned from restored state in `async_added_to_hass`); then a
confirmed-settings update applied to A leaves the mapping B observes
unchanged.  With both entities still on the shared class dict, an update
to A is visible to B. -/
theorem C3_isolated_iff_instance_dict (w : SharedWorld) (s : AcSettings)
    (h : w.aOwn ≠ none ∨ w.bOwn ≠ none) :
    (recordConfirmedA w s).bView = w.bView := by
  unfold recordConfirmedA
  cases hp : parseFloat s.temp with
  | none => rfl
  | some q =>
    cases ha : w.aOwn with
    | some d => simp [SharedWorld.bView, lookupLastTarget]
    | none =>
      rcases h with h | h
      · exact absurd ha h
      · cases hb : w.bOwn with
        | none => exact absurd hb h
        | some db => simp [SharedWorld.bView, lookupLastTarget, hb]

/-- C3 witness: A has a restored instance mapping, so confirming warm/20
on A leaves B's view (the class dict) unchanged. -/
theorem C3_isolated_iff_instance_dict_witness :
    (recordConfirmedA (restoreA SharedWorld.fresh [("cool", "25")])
        ⟨"warm", "20", "auto", "swing", "c", "", "2023-01-01"⟩).bView =
      (restoreA SharedWorld.fresh [("cool", "25")]).bView :=
  C3_isolated_iff_instance_dict _ _ (Or.inl (by decide))

/-- C4: a mode change to a non-off mode with no explicit target
temperature stages `lastTargetByMode[vendorMode]` when an entry for the
vendor mode exists, else the fixed default 23 (the same for every
thermostatic mode).  The hypothesis that stored values are non-empty is
the invariant `_on_settings_update` maintains
(`applyConfirmed_preserves_truthy`); the code tests the entry with
Python truthiness, which for those values coincides with existence. -/
theorem C4_mode_change_stages_remembered_or_default
    (lastTarget : Dict String) (hm : HVACMode) (hoff : hm ≠ HVACMode.off)
    (hwf : ∀ p ∈ lastTarget, p.2 ≠ "") :
    dictGet (set_temperature_data lastTarget none (some hm)) "temperature" =
      some (match dictGet lastTarget (MODE_HA_TO_REMO hm) with
            | some v => PyVal.s v
            | none => PyVal.i 23) := by
  have hmode : ¬(MODE_HA_TO_REMO hm = MODE_HA_TO_REMO HVACMode.off) := by
    cases hm <;> first | exact absurd rfl hoff | decide
  have hdt : DEFAULT_TEMP hm = some 23 := by
    cases hm <;> first | rfl | exact absurd rfl hoff
  unfold set_temperature_data
  dsimp only
  rw [if_neg hmode, hdt]
  cases hlt : dictGet lastTarget (MODE_HA_TO_REMO hm) with
  | some v =>
    have hv : v ≠ "" := hwf _ (dictGet_mem hlt)
    simp only [hlt, if_pos hv]
    exact dictGet_dictSet_self _ _ _
  | none =>
    simp only [hlt]
    rw [if_pos (by decide : (23 : ℤ) ≠ 0)]
    exact dictGet_dictSet_self _ _ _

/-- C4 witness: with cool/25 remembered, switching to heat (no prior
entry) stages the default 23, and switching to cool stages the
remembered 25. -/
theorem C4_mode_change_stages_remembered_or_default_witness :
    dictGet (set_temperature_data [("cool", "25")] none (some HVACMode.heat))
        "temperature" = some (PyVal.i 23) ∧
    dictGet (set_temperature_data [("cool", "25")] none (some HVACMode.cool))
        "temperature" = some (PyVal.s "25") := by
  constructor
  · rw [(C4_mode_change_stages_remembered_or_default [("cool", "25")]
      HVACMode.heat (by decide) (by decide))]
    decide
  · rw [(C4_mode_change_stages_remembered_or_default [("cool", "25")]
      HVACMode.cool (by decide) (by decide))]
    decide

/-- C5: `_on_settings_update` is idempotent — applying the same valid
confirmed settings twice in a row yields the same entity state (mode,
target temperature, lastTargetByMode, hvac mode, fan, swing, unit and
timestamp) as applying it once. -/
theorem C5_applyConfirmed_idempotent (st st' : EntityState) (s : AcSettings)
    (h : applyConfirmed st s = some st') : applyConfirmed st' s = some st' := by
  unfold applyConfirmed at h ⊢
  cases hb : (if s.button = MODE_HA_TO_REMO .off then some HVACMode.off
              else MODE_REMO_TO_HA s.mode) with
  | none => rw [hb] at h; simp at h
  | some hvac =>
    cases hu : TEMP_UNIT_REMO_TO_HA s.temp_unit with
    | none => rw [hb, hu] at h; simp at h
    | some unit =>
      rw [hb, hu] at h
      simp only [Option.some.injEq] at h
      subst h
      cases hp : parseFloat s.temp with
      | none => simp [hp]
      | some q => simp [hp, dictSet_idem]

/-- C5 witness: applying cool/25 a second time reproduces the state the
first application established. -/
theorem C5_applyConfirmed_idempotent_witness :
    applyConfirmed
      { remoMode := some "cool", targetTemperature := some 25,
        lastTargetTemperature := [("cool", "25")],
        hvacMode := some HVACMode.cool, fanMode := some "auto",
        swingMode := some "swing", temperatureUnit := some TempUnit.celsius,
        updatedAt := some "2023-01-01" }
      ⟨"cool", "25", "auto", "swing", "c", "", "2023-01-01"⟩ =
    some
      { remoMode := some "cool", targetTemperature := some 25,
        lastTargetTemperature := [("cool", "25")],
        hvacMode := some HVACMode.cool, fanMode := some "auto",
        swingMode := some "swing", temperatureUnit := some TempUnit.celsius,
        updatedAt := some "2023-01-01" } :=
  C5_applyConfirmed_idempotent
    { remoMode := none, targetTemperature := none, lastTargetTemperature := [],
      hvacMode := none, fanMode := none, swingMode := none,
      temperatureUnit := none, updatedAt := none }
    _ ⟨"cool", "25", "auto", "swing", "c", "", "2023-01-01"⟩
    (by
      unfold applyConfirmed
      dsimp only
      rw [parseFloat_25]
      decide)

/-- C6: the temperature step for the current mode is
`round(values[1] - values[0], 1)` when the filtered parsed sequence has
at least two values, accepted only when the result is exactly 1.0 or
0.5; in every other case (non-accepted difference, or fewer than two
values) the step is 1. -/
theorem C6_step_heuristic (entries : List String) (vals : List ℚ)
    (h : _current_mode_temp_range entries = some vals) :
    (∀ a b rest, vals = a :: b :: rest →
      target_temperature_step entries =
        some (if pyRound1 (b - a) = 1 ∨ pyRound1 (b - a) = 1 / 2
              then pyRound1 (b - a) else 1)) ∧
    (vals.length < 2 → target_temperature_step entries = some 1) := by
  constructor
  · intro a b rest hv
    unfold target_temperature_step
    rw [h, hv]
    rfl
  · intro hlen
    unfold target_temperature_step
    rw [h]
    match vals, hlen with
    | [], _ => rfl
    | [a], _ => rfl

/-- C6 witness: the sequence `["18", "18.5", "19"]` yields step 0.5. -/
theorem C6_step_heuristic_witness :
    _current_mode_temp_range ["18", "18.5", "19"] = some [18, 37 / 2, 19] ∧
    target_temperature_step ["18", "18.5", "19"] = some (1 / 2) := by
  have hr : _current_mode_temp_range ["18", "18.5", "19"] =
      some [18, 37 / 2, 19] := by
    unfold _current_mode_temp_range
    rw [show (["18", "18.5", "19"].filter fun s => !(s == "")) =
        ["18", "18.5", "19"] from rfl]
    simp [List.mapM.loop, parseFloat_18, parseFloat_18_5, parseFloat_19]
  have h := C6_step_heuristic ["18", "18.5", "19"] [18, 37 / 2, 19] hr
  refine ⟨hr, ?_⟩
  rw [h.1 18 (37 / 2) [19] rfl, show (37 / 2 - 18 : ℚ) = 1 / 2 by norm_num]
  have hp : pyRound1 (1 / 2) = 1 / 2 := by
    unfold pyRound1
    dsimp only
    rw [show (10 * ((1 : ℚ) / 2)) = ((5 : ℤ) : ℚ) by norm_num,
      Int.floor_intCast]
    norm_num
  rw [hp]
  norm_num

/-- C7: an empty filtered temperature sequence degrades the range to
`[0, 0]` instead of failing; a non-empty one yields its minimum and
maximum. -/
theorem C7_min_max_degrade (entries : List String) (vals : List ℚ)
    (h : _current_mode_temp_range entries = some vals) :
    min_temp entries = some ((vals.min?).getD 0) ∧
    max_temp entries = some ((vals.max?).getD 0) := by
  constructor
  · unfold min_temp
    rw [h]
    cases vals <;> rfl
  · unfold max_temp
    rw [h]
    cases vals <;> rfl

/-- C7 witness: `["", "19", "18"]` filters to `[19, 18]`, giving min 18
and max 19. -/
theorem C7_min_max_degrade_witness :
    min_temp ["", "19", "18"] = some 18 ∧
    max_temp ["", "19", "18"] = some 19 := by
  have hr : _current_mode_temp_range ["", "19", "18"] = some [19, 18] := by
    unfold _current_mode_temp_range
    rw [show ((["", "19", "18"] : List String).filter fun s => !(s == "")) =
        ["19", "18"] from rfl]
    simp [List.mapM.loop, parseFloat_19, parseFloat_18]
  obtain ⟨h1, h2⟩ := C7_min_max_degrade ["", "19", "18"] [19, 18] hr
  refine ⟨?_, ?_⟩
  · rw [h1]
    norm_num [List.min?]
  · rw [h2]
    norm_num [List.max?]

/-- C8: a confirmed-settings update whose `temp` does not parse as a
number does not fail: the target temperature is left undefined while
mode, fan, swing, unit and timestamp are still applied from the server
settings. -/
theorem C8_unparseable_temp_tolerated (st : EntityState) (s : AcSettings)
    (hvac : HVACMode) (unit : TempUnit)
    (hp : parseFloat s.temp = none)
    (hb : (if s.button = MODE_HA_TO_REMO .off then some HVACMode.off
           else MODE_REMO_TO_HA s.mode) = some hvac)
    (hu : TEMP_UNIT_REMO_TO_HA s.temp_unit = some unit) :
    applyConfirmed st s =
      some
        { remoMode := some s.mode
          targetTemperature := none
          lastTargetTemperature := st.lastTargetTemperature
          hvacMode := some hvac
          fanMode := orNone s.vol
          swingMode := orNone s.dir
          temperatureUnit := some unit
          updatedAt := orNone s.updated_at } := by
  unfold applyConfirmed
  rw [hb, hu, hp]

/-- C8 witness: an empty `temp` string leaves the target undefined while
the other fields are applied. -/
theorem C8_unparseable_temp_tolerated_witness :
    applyConfirmed
      { remoMode := none, targetTemperature := none, lastTargetTemperature := [],
        hvacMode := none, fanMode := none, swingMode := none,
        temperatureUnit := none, updatedAt := none }
      ⟨"cool", "", "auto", "swing", "c", "", "2023-01-01"⟩ =
    some
      { remoMode := some "cool", targetTemperature := none,
        lastTargetTemperature := [], hvacMode := some HVACMode.cool,
        fanMode := some "auto", swingMode := some "swing",
        temperatureUnit := some TempUnit.celsius,
        updatedAt := some "2023-01-01" } :=
  C8_unparseable_temp_tolerated _ _ HVACMode.cool TempUnit.celsius
    (by rfl) (by decide) (by decide)

/-- C10: a confirmed-settings update whose `temp` fails to parse leaves
the whole `lastTargetByMode` mapping unchanged — no entry is added,
removed or overwritten for any mode. -/
theorem C10_failed_parse_preserves_last_targets (st st' : EntityState)
    (s : AcSettings) (hp : parseFloat s.temp = none)
    (h : applyConfirmed st s = some st') :
    st'.lastTargetTemperature = st.lastTargetTemperature := by
  unfold applyConfirmed at h
  cases hb : (if s.button = MODE_HA_TO_REMO .off then some HVACMode.off
              else MODE_REMO_TO_HA s.mode) with
  | none => rw [hb] at h; simp at h
  | some hvac =>
    cases hu : TEMP_UNIT_REMO_TO_HA s.temp_unit with
    | none => rw [hb, hu] at h; simp at h
    | some unit =>
      rw [hb, hu, hp] at h
      simp only [Option.some.injEq] at h
      subst h
      rfl

/-- C10 witness: after the empty-`temp` update, the mapping is still the
(empty) one the entity started with. -/
theorem C10_failed_parse_preserves_last_targets_witness :
    (⟨some "cool", none, [], some HVACMode.cool, some "auto", some "swing",
        some TempUnit.celsius, some "2023-01-01"⟩ : EntityState).lastTargetTemperature =
      (⟨none, none, [], none, none, none, none, none⟩ :
        EntityState).lastTargetTemperature :=
  C10_failed_parse_preserves_last_targets
    ⟨none, none, [], none, none, none, none, none⟩
    ⟨some "cool", none, [], some HVACMode.cool, some "auto", some "swing",
      some TempUnit.celsius, some "2023-01-01"⟩
    ⟨"cool", "", "auto", "swing", "c", "", "2023-01-01"⟩
    (by rfl) (by decide)

/-- C9: an explicit temperature command stages a string that `float`
parses back to the same value; a whole-number temperature is staged as
the integer representation (no decimal point anywhere in the string),
and a non-whole value is staged with its fractional part (the string
contains a decimal point). -/
theorem C9_whole_temps_staged_as_ints (lastTarget : Dict String)
    (hvac_mode : Option HVACMode) (t : ℚ) (hpos : 0 ≤ t)
    (h10 : (10 * t).den = 1) :
    ∃ str : String,
      dictGet (set_temperature_data lastTarget (some t) hvac_mode)
          "temperature" = some (PyVal.s str) ∧
      parseFloat str = some t ∧
      (t.den = 1 → str = intRepr t.num ∧ '.' ∉ str.data) ∧
      (t.den ≠ 1 → '.' ∈ str.data) := by
  refine ⟨pyFormat t, ?_, parseFloat_pyFormat hpos h10, ?_, ?_⟩
  · unfold set_temperature_data
    dsimp only
    exact dictGet_dictSet_self _ _ _
  · intro hden
    refine ⟨by rw [pyFormat, if_pos hden], ?_⟩
    rw [pyFormat, if_pos hden]
    exact intRepr_no_dot (Rat.num_nonneg.mpr hpos)
  · intro hden
    rw [pyFormat, if_neg hden, oneDecRepr_data hpos]
    exact List.mem_append_right _ (by simp)

/-- C9 witness: the command `set_temperature(24.0)` with no staged mode
stages an integer string for 24. -/
theorem C9_whole_temps_staged_as_ints_witness :
    ∃ str : String,
      dictGet (set_temperature_data [] (some 24) none) "temperature" =
        some (PyVal.s str) ∧
      parseFloat str = some 24 ∧
      ((24 : ℚ).den = 1 → str = intRepr (24 : ℚ).num ∧ '.' ∉ str.data) ∧
      ((24 : ℚ).den ≠ 1 → '.' ∈ str.data) :=
  C9_whole_temps_staged_as_ints [] none 24 (by norm_num) (by norm_num)

end NatureRemo
